import Mathlib

/-! Geometry batching and draw dispatch of the SDL_ttf GPU text sample.

Shallow embedding of `src/main.cpp`: the host-side geometry buffer, the draw-sequence
flattener (`queue_text_sequence`, `queue_text`), the staging and upload ranges
(`set_geometry_data`, `transfer_data`), the draw dispatcher (`draw`), the vertex input
layout and the control flow of `main`.

Modelling conventions.

* A C `float` is represented by its IEEE-754 binary32 bit pattern (a natural number).
  The code under study only stores and copies floats and writes the literal `0.0f`,
  whose bit pattern is `0`.
* Memory reached through a C pointer (`Vertex *`, `int *`, `SDL_FPoint *`) is a total
  function from element position to value: `mem p` is the C expression `mem[p]` for
  `p ≥ 0`. A store through a pointer is not bounds-checked, exactly as in C, so positions
  at or beyond the allocated capacity stand for the memory that follows the allocation.
  A store at a negative index lands before the array and leaves these cells as they are.
* A C `int` variable the code computes with (`vertex_count`, `index_count`, the running
  `index_offset` and `vertex_offset` of `draw`) is represented by its 32-bit
  two's-complement bit pattern, a natural number below `2 ^ 32`; a non-negative `int` is
  its own pattern. Addition of two `int`s is addition modulo `2 ^ 32` (`int_add`), the
  wrap-around the target performs on overflow, and `int_value` is the signed value of a
  pattern. Conversion of an `int` to `Uint32` keeps the pattern, conversion to `Sint32`
  keeps the value, conversion to `size_t` extends the sign (`to_size_t`).
* The counts `num_vertices` and `num_indices` of a draw-sequence node are the values of
  its two `int` fields, which hold element counts and are not negative. Index *values*
  stored in index arrays are only copied and are modelled as `Int`.
* Unsigned arithmetic (`size_t` products truncated into `Uint32` fields) wraps, and is
  written with an explicit modulus.
* The null-terminated chain of `TTF_GPUAtlasDrawSequence` nodes linked by `next` is the
  list of its nodes in chain order.
-/

namespace TextGpu

/-! ## Constants -/

/-- The macro `MAX_VERTEX_COUNT` (main.cpp line 26). -/
def MAX_VERTEX_COUNT : Nat := 4000

/-- The macro `MAX_INDEX_COUNT` (main.cpp line 27). -/
def MAX_INDEX_COUNT : Nat := 6000

/-- The largest value of a C `int`, `2 ^ 31 - 1`. -/
def INT_MAX : Nat := 2147483647

/-- The C sum `a + b` of two `int`s given by their bit patterns: addition modulo
`2 ^ 32`. -/
def int_add (a b : Nat) : Nat := (a + b) % 2 ^ 32

/-- The signed value of the `int` with the given bit pattern. -/
def int_value (pattern : Nat) : Int :=
  if pattern % 2 ^ 32 < 2 ^ 31 then ((pattern % 2 ^ 32 : Nat) : Int)
  else ((pattern % 2 ^ 32 : Nat) : Int) - 2 ^ 32

/-- Truncation to `Uint32`, the type of the `offset` and `size` fields of
`SDL_GPUTransferBufferLocation` and `SDL_GPUBufferRegion` and of the unsigned
parameters of `SDL_DrawGPUIndexedPrimitives`. -/
def to_Uint32 (n : Nat) : Nat := n % 2 ^ 32

/-- The conversion of the `int` with the given bit pattern to the 64-bit `size_t`. -/
def to_size_t (pattern : Nat) : Nat := (int_value pattern % 2 ^ 64).toNat

/-- A C `float`, represented by its binary32 bit pattern. -/
abbrev CFloat := Nat

/-- The literal `0.0f`. -/
def f32_zero : CFloat := 0

/-- The literal `1.0f` (bit pattern `0x3F800000`). -/
def f32_one : CFloat := 0x3F800000

/-! ## Data model -/

/-- The type `Vec2`, an alias of `SDL_FPoint` (main.cpp line 43): two floats. -/
structure Vec2 where
  x : CFloat
  y : CFloat
deriving DecidableEq, Repr

/-- The struct `Vec3` (main.cpp lines 45-47). -/
structure Vec3 where
  x : CFloat
  y : CFloat
  z : CFloat
deriving DecidableEq, Repr

/-- The SDL struct `SDL_FColor`: four floats `r`, `g`, `b`, `a`. -/
structure SDL_FColor where
  r : CFloat
  g : CFloat
  b : CFloat
  a : CFloat
deriving DecidableEq, Repr

/-- The struct `Vertex` (main.cpp lines 49-53). -/
structure Vertex where
  pos : Vec3
  colour : SDL_FColor
  uv : Vec2
deriving DecidableEq, Repr

/-- An opaque GPU texture handle (`SDL_GPUTexture *`), identified by a number. -/
abbrev Texture := Nat

/-- The struct `GeometryData` (main.cpp lines 66-71). `vertices` and `indices` are the
memory reached through the two pointers, indexed by element position; `vertex_count`
and `index_count` are the bit patterns of the two `int` fields: a count up to `INT_MAX`
is its own pattern, and `int_value` gives the signed value of the field. -/
structure GeometryData where
  vertices : Nat → Vertex
  vertex_count : Nat
  indices : Nat → Int
  index_count : Nat

/-- One node of the SDL_ttf struct `TTF_GPUAtlasDrawSequence`, without its `next` link
(the chain is a list of nodes). `xy`, `uv` and `indices` are the arrays reached through
the node's pointers. -/
structure TTF_GPUAtlasDrawSequence where
  atlas_texture : Texture
  xy : Nat → Vec2
  uv : Nat → Vec2
  num_vertices : Nat
  indices : Nat → Int
  num_indices : Nat

/-- The store `mem[pos] = v` through a pointer. -/
def store {α : Type} (mem : Nat → α) (pos : Nat) (v : α) : Nat → α :=
  fun p => if p = pos then v else mem p

/-- The store `mem[index] = v` through a pointer with a signed index: a negative index
addresses memory before the array and leaves the cells of the array as they are. -/
def store_at {α : Type} (mem : Nat → α) (index : Int) (v : α) : Nat → α :=
  if 0 ≤ index then store mem index.toNat v else mem

/-- The call `SDL_memcpy(dst + base, src, n * sizeof(elem))` on arrays of one element
type, `base` being the signed offset added to the pointer `dst`: element `i` of the
source is copied to position `base + i`, for `i < n`. -/
def SDL_memcpy {α : Type} (dst : Nat → α) (base : Int) (src : Nat → α) (n : Nat) : Nat → α :=
  (List.range n).foldl (fun mem (i : Nat) => store_at mem (base + (i : Int)) (src i)) dst

/-! ## The draw-sequence flattener -/

/-- The vertex built by the body of the loop of `queue_text_sequence`
(main.cpp lines 170-174) for the point number `i` of a node. -/
def make_vertex (sequence : TTF_GPUAtlasDrawSequence) (colour : SDL_FColor) (i : Nat) :
    Vertex :=
  { pos := { x := (sequence.xy i).x, y := (sequence.xy i).y, z := f32_zero }
    colour := colour
    uv := sequence.uv i }

/-- The function `queue_text_sequence` (main.cpp lines 166-184): the loop over
`i < num_vertices` storing at the `int` index `vertex_count + i`, the `SDL_memcpy` of
the indices to `indices + index_count`, then the two `+=` on the `int` counts. No
capacity check is made. -/
def queue_text_sequence (geometry_data : GeometryData)
    (sequence : TTF_GPUAtlasDrawSequence) (colour : SDL_FColor) : GeometryData :=
  let vertices := (List.range sequence.num_vertices).foldl
    (fun mem i => store_at mem (int_value (int_add geometry_data.vertex_count i))
      (make_vertex sequence colour i))
    geometry_data.vertices
  let indices := SDL_memcpy geometry_data.indices (int_value geometry_data.index_count)
    sequence.indices sequence.num_indices
  { vertices := vertices
    vertex_count := int_add geometry_data.vertex_count sequence.num_vertices
    indices := indices
    index_count := int_add geometry_data.index_count sequence.num_indices }

/-- The function `queue_text` (main.cpp lines 186-191): the walk along `next`, calling
`queue_text_sequence` on every node in chain order. -/
def queue_text (geometry_data : GeometryData) (sequence : List TTF_GPUAtlasDrawSequence)
    (colour : SDL_FColor) : GeometryData :=
  sequence.foldl (fun g seq => queue_text_sequence g seq colour) geometry_data

/-- The end-of-frame reset of `main` (main.cpp lines 494-495):
`vertex_count = 0; index_count = 0;`. -/
def reset (geometry_data : GeometryData) : GeometryData :=
  { geometry_data with vertex_count := 0, index_count := 0 }

/-- A geometry buffer that holds nothing: both counts are zero, over any memory. -/
def empty_geometry (vertices : Nat → Vertex) (indices : Nat → Int) : GeometryData :=
  { vertices := vertices, vertex_count := 0, indices := indices, index_count := 0 }

/-- The zero vertex, as left by `SDL_calloc`. -/
def zero_vertex : Vertex :=
  { pos := ⟨0, 0, 0⟩, colour := ⟨0, 0, 0, 0⟩, uv := ⟨0, 0⟩ }

/-- The geometry buffer as `main` creates it (main.cpp lines 416-420): zero counts and
two zero-filled allocations of `MAX_VERTEX_COUNT` vertices and `MAX_INDEX_COUNT`
indices. Positions beyond those capacities are the memory after the allocations, here
taken to be zero as well. -/
def initial_geometry : GeometryData :=
  { vertices := fun _ => zero_vertex
    vertex_count := 0
    indices := fun _ => 0
    index_count := 0 }

/-! ## The draw dispatcher -/

/-- The calls `draw` records on the render pass and the command buffer. Buffers, the
pipeline and the sampler are the fixed ones of the `Context` and are not named. -/
inductive GpuCall where
  | BeginGPURenderPass (swapchain_texture : Texture)
  | BindGPUGraphicsPipeline
  | BindGPUVertexBuffers (first_slot offset num_bindings : Nat)
  | BindGPUIndexBuffer (offset index_element_bits : Nat)
  | PushGPUVertexUniformData (slot_index num_matrices : Nat)
  | BindGPUFragmentSamplers (first_slot : Nat) (texture : Texture) (num_bindings : Nat)
  | DrawGPUIndexedPrimitives (num_indices num_instances first_index : Nat)
      (vertex_offset : Int) (first_instance : Nat)
  | EndGPURenderPass
deriving DecidableEq, Repr

/-- The local state of the loop of `draw`: the calls issued so far and the bit patterns
of the two running `int` offsets `index_offset` and `vertex_offset` (main.cpp line
257). -/
structure DrawLoopState where
  calls : List GpuCall
  index_offset : Nat
  vertex_offset : Nat
deriving DecidableEq, Repr

/-- One iteration of the loop of `draw` (main.cpp lines 260-268): bind the node's atlas
texture, draw `num_indices` indices at the running offsets, advance both offsets with
`+=` on `int`. `SDL_DrawGPUIndexedPrimitives` takes `num_indices` and `first_index` as
`Uint32` and `vertex_offset` as `Sint32`. -/
def draw_loop_body (st : DrawLoopState) (seq : TTF_GPUAtlasDrawSequence) : DrawLoopState :=
  { calls := st.calls ++
      [GpuCall.BindGPUFragmentSamplers 0 seq.atlas_texture 1,
       GpuCall.DrawGPUIndexedPrimitives (to_Uint32 seq.num_indices) 1
         (to_Uint32 st.index_offset) (int_value st.vertex_offset) 0]
    index_offset := int_add st.index_offset seq.num_indices
    vertex_offset := int_add st.vertex_offset seq.num_vertices }

/-- The loop of `draw` (main.cpp lines 257-269), run from a given state along the chain. -/
def draw_loop (st : DrawLoopState) (draw_sequence : List TTF_GPUAtlasDrawSequence) :
    DrawLoopState :=
  draw_sequence.foldl draw_loop_body st

/-- The state in which `draw` enters its loop: the calls of lines 243-255 have been
issued and both offsets are `0`. -/
def draw_loop_entry (swapchain_texture : Texture) (num_matrices : Nat) : DrawLoopState :=
  { calls :=
      [GpuCall.BeginGPURenderPass swapchain_texture,
       GpuCall.BindGPUGraphicsPipeline,
       GpuCall.BindGPUVertexBuffers 0 0 1,
       GpuCall.BindGPUIndexBuffer 0 32,
       GpuCall.PushGPUVertexUniformData 0 num_matrices]
    index_offset := 0
    vertex_offset := 0 }

/-- The function `draw` (main.cpp lines 230-272). `swapchain_texture` is the value
`SDL_WaitAndAcquireGPUSwapchainTexture` hands back (`none` for `NULL`). The result is
the list of GPU calls issued, in order. -/
def draw (swapchain_texture : Option Texture) (num_matrices : Nat)
    (draw_sequence : List TTF_GPUAtlasDrawSequence) : List GpuCall :=
  match swapchain_texture with
  | none => []
  | some t =>
    (draw_loop (draw_loop_entry t num_matrices) draw_sequence).calls ++
      [GpuCall.EndGPURenderPass]

/-- An indexed draw call as the GPU sees it: its arguments and the fragment texture
bound when it is issued. -/
structure DrawCall where
  num_indices : Nat
  index_offset : Nat
  vertex_offset : Int
  texture : Option Texture
deriving DecidableEq, Repr

/-- The indexed draw calls of a list of GPU calls, each with the texture most recently
bound before it; `bound` is the texture bound on entry. -/
def indexed_draws : Option Texture → List GpuCall → List DrawCall
  | _, [] => []
  | _, GpuCall.BindGPUFragmentSamplers _ t _ :: rest => indexed_draws (some t) rest
  | bound, GpuCall.DrawGPUIndexedPrimitives n _ first_index vertex_offset _ :: rest =>
      { num_indices := n, index_offset := first_index, vertex_offset := vertex_offset,
        texture := bound } :: indexed_draws bound rest
  | bound, _ :: rest => indexed_draws bound rest

/-! ## Staging and upload ranges -/

/-- The size of a C `float` in bytes. -/
def sizeof_float : Nat := 4

/-- The size of a C `int` in bytes. -/
def sizeof_int : Nat := 4

/-- A member of a C struct: its size and its alignment, in bytes. -/
structure Member where
  size : Nat
  align : Nat
deriving DecidableEq, Repr

/-- Round `offset` up to the next multiple of `align`. -/
def align_up (offset align : Nat) : Nat :=
  (offset + align - 1) / align * align

/-- The byte offsets the C layout rule gives the members of a struct, in declaration
order, the first free byte being `offset`. -/
def member_offsets : Nat → List Member → List Nat
  | _, [] => []
  | offset, m :: rest =>
      align_up offset m.align :: member_offsets (align_up offset m.align + m.size) rest

/-- The first byte after the last member. -/
def members_end : Nat → List Member → Nat
  | offset, [] => offset
  | offset, m :: rest => members_end (align_up offset m.align + m.size) rest

/-- The value of `sizeof` for a struct with the given members: the end of the last
member rounded up to the largest member alignment. -/
def sizeof_struct (members : List Member) : Nat :=
  align_up (members_end 0 members) ((members.map Member.align).foldl max 1)

/-- A struct made of `n` floats (`Vec3`, `SDL_FColor`, `SDL_FPoint`), as a member. -/
def floats (n : Nat) : Member :=
  { size := sizeof_struct (List.replicate n ⟨sizeof_float, sizeof_float⟩)
    align := sizeof_float }

/-- The members of `Vertex` (main.cpp lines 49-53): `Vec3 pos`, `SDL_FColor colour`,
`Vec2 uv`. -/
def Vertex_members : List Member := [floats 3, floats 4, floats 2]

/-- The value of `sizeof(Vertex)`. -/
def sizeof_Vertex : Nat := sizeof_struct Vertex_members

/-- The size of the transfer buffer, `tbf_info.size` (main.cpp lines 399-402). -/
def transfer_buffer_size : Nat :=
  to_Uint32 (sizeof_Vertex * MAX_VERTEX_COUNT + sizeof_int * MAX_INDEX_COUNT)

/-- The two host arrays of the geometry buffer. -/
inductive HostArray where
  | vertices
  | indices
deriving DecidableEq, Repr

/-- One `SDL_memcpy` into the mapped transfer buffer: the byte offset of its
destination from the start of the mapping, its source array and its size in bytes. -/
structure StagingWrite where
  dst_offset : Nat
  src : HostArray
  size : Nat
deriving DecidableEq, Repr

/-- The `size_t` product `size * count` of a `sizeof` and an `int` count. -/
def size_t_mul (size count : Nat) : Nat := size * to_size_t count % 2 ^ 64

/-- The function `set_geometry_data` (main.cpp lines 193-203): the two copies into the
mapped transfer buffer. The mapping is held as a `Vertex *`, so the destination
`transfer_data + MAX_VERTEX_COUNT` lies `sizeof(Vertex) * MAX_VERTEX_COUNT` bytes in.
The sizes are the `size_t` products of a `sizeof` and an `int` count. -/
def set_geometry_data (geometry_data : GeometryData) : List StagingWrite :=
  [ { dst_offset := 0, src := HostArray.vertices,
      size := size_t_mul sizeof_Vertex geometry_data.vertex_count },
    { dst_offset := MAX_VERTEX_COUNT * sizeof_Vertex, src := HostArray.indices,
      size := size_t_mul sizeof_int geometry_data.index_count } ]

/-- The two device buffers of the `Context`. -/
inductive DeviceBuffer where
  | vertex_buffer
  | index_buffer
deriving DecidableEq, Repr

/-- One `SDL_UploadToGPUBuffer` call: the source offset in the transfer buffer and the
destination region (buffer, offset, size). -/
structure Upload where
  src_offset : Nat
  buffer : DeviceBuffer
  dst_offset : Nat
  size : Nat
deriving DecidableEq, Repr

/-- The function `transfer_data` (main.cpp lines 205-228): the two uploads of its copy
pass, with their `Uint32` offsets and sizes. -/
def transfer_data (geometry_data : GeometryData) : List Upload :=
  [ { src_offset := 0, buffer := DeviceBuffer.vertex_buffer, dst_offset := 0,
      size := to_Uint32 (size_t_mul sizeof_Vertex geometry_data.vertex_count) },
    { src_offset := to_Uint32 (sizeof_Vertex * MAX_VERTEX_COUNT),
      buffer := DeviceBuffer.index_buffer, dst_offset := 0,
      size := to_Uint32 (size_t_mul sizeof_int geometry_data.index_count) } ]

/-! ## The vertex input layout -/

/-- The vertex element formats used by the pipeline. -/
inductive VertexElementFormat where
  | FLOAT2
  | FLOAT3
  | FLOAT4
deriving DecidableEq, Repr

/-- The number of bytes an attribute of the given format reads: two, three or four
32-bit floats. -/
def VertexElementFormat.bytes : VertexElementFormat → Nat
  | VertexElementFormat.FLOAT2 => 2 * 4
  | VertexElementFormat.FLOAT3 => 3 * 4
  | VertexElementFormat.FLOAT4 => 4 * 4

/-- The struct `SDL_GPUVertexAttribute`. -/
structure SDL_GPUVertexAttribute where
  location : Nat
  buffer_slot : Nat
  format : VertexElementFormat
  offset : Nat
deriving DecidableEq, Repr

/-- The array `vertex_attributes` of `main` (main.cpp lines 344-357). -/
def vertex_attributes : List SDL_GPUVertexAttribute :=
  [ { location := 0, buffer_slot := 0, format := VertexElementFormat.FLOAT3, offset := 0 },
    { location := 1, buffer_slot := 0, format := VertexElementFormat.FLOAT4,
      offset := sizeof_float * 3 },
    { location := 2, buffer_slot := 0, format := VertexElementFormat.FLOAT2,
      offset := sizeof_float * 7 } ]

/-- The field `vertex_buffer_desc.pitch` of `main` (main.cpp line 336). -/
def vertex_buffer_pitch : Nat := sizeof_Vertex

/-! ## Control flow of `main` -/

/-- The value of the SDL enumerator `SDL_APP_FAILURE`, the third enumerator of
`SDL_AppResult` after `SDL_APP_CONTINUE` and `SDL_APP_SUCCESS`. -/
def SDL_APP_FAILURE : Int := 2

/-- The function `SDL_Fail` (main.cpp lines 32-35): logs the error and returns
`SDL_APP_FAILURE`. -/
def SDL_Fail : Int := SDL_APP_FAILURE

/-- The outcome of each fallible call `main` makes before its frame loop: `true` when
the call succeeded (a non-null pointer, or `true`). -/
structure StartupOutcome where
  base_path : Bool
  sdl_init : Bool
  window : Bool
  device : Bool
  claim_window : Bool
  vertex_shader : Bool
  fragment_shader : Bool
  pipeline : Bool
  vertex_buffer : Bool
  index_buffer : Bool
  transfer_buffer : Bool
  sampler : Bool
  ttf_init : Bool
  font : Bool
  text_engine : Bool
  text : Bool
deriving DecidableEq, Repr

/-- The key code `SDLK_ESCAPE`. -/
def SDLK_ESCAPE : Nat := 27

/-- The events the frame loop tells apart (main.cpp lines 448-457). -/
inductive Event where
  | key_up (key : Nat)
  | quit
  | other
deriving DecidableEq, Repr

/-- The body of the `switch` of the event loop (main.cpp lines 448-457), acting on
`running`. -/
def handle_event (running : Bool) : Event → Bool
  | Event.key_up key => if key = SDLK_ESCAPE then false else running
  | Event.quit => false
  | Event.other => running

/-- What one frame receives from outside: the events `SDL_PollEvent` delivers, the draw
sequence `TTF_GetGPUTextDrawData` returns and the swapchain texture acquired. -/
structure FrameInput where
  events : List Event
  sequence : List TTF_GPUAtlasDrawSequence
  swapchain_texture : Option Texture

/-- The tint `colour` of `main` (main.cpp line 443): `{1.0f, 1.0f, 0.0f, 1.0f}`. -/
def main_colour : SDL_FColor := ⟨f32_one, f32_one, f32_zero, f32_one⟩

/-- The geometry part of one frame of `main` (main.cpp lines 483-495): `queue_text`,
then staging, upload and draw, which read the buffer, then the reset of the counts. -/
def frame_geometry (geometry_data : GeometryData) (input : FrameInput) : GeometryData :=
  reset (queue_text geometry_data input.sequence main_colour)

/-- The loop `while (running)` of `main` (main.cpp lines 445-496) over the inputs of
the successive frames. A frame in which `running` is cleared still runs to its end.
The result is `none` when the inputs end while `running` still holds. -/
def frame_loop : Bool → GeometryData → List FrameInput → Option GeometryData
  | false, geometry_data, _ => some geometry_data
  | true, _, [] => none
  | true, geometry_data, input :: rest =>
      frame_loop (input.events.foldl handle_event true) (frame_geometry geometry_data input)
        rest

/-- Whether every startup call other than `SDL_GetBasePath` and `TTF_OpenFont`
succeeded, so that no null handle is in use after startup. -/
def startup_handles_valid (startup : StartupOutcome) : Bool :=
  startup.sdl_init && startup.window && startup.device && startup.claim_window &&
  startup.vertex_shader && startup.fragment_shader && startup.pipeline &&
  startup.vertex_buffer && startup.index_buffer && startup.transfer_buffer &&
  startup.sampler && startup.ttf_init && startup.text_engine && startup.text

/-- How a run of `main` ends. -/
inductive RunResult where
  | returned (status : Int)
  | running
  | unspecified
deriving DecidableEq, Repr

/-- The function `main` (main.cpp lines 285-508) reduced to what decides its return
value: the early `return SDL_Fail()` when `SDL_GetBasePath` fails, `running = false`
when the font is null, the frame loop, and the final `return 0`. A failed startup call
other than these two is only logged by `check_error_ptr` or `check_error_bool` and
`main` goes on with the null handle; what the later calls do with it (report an error,
or fault, as the copies of `set_geometry_data` through a null mapping do) is not
modelled, and the result is `unspecified`. With valid handles the calls made in a
frame are taken to succeed. The result is `running` when the frame loop has not ended
by the end of the inputs. -/
def main (startup : StartupOutcome) (frames : List FrameInput) : RunResult :=
  if startup.base_path = false then RunResult.returned SDL_Fail
  else if startup_handles_valid startup = false then RunResult.unspecified
  else
    let running := if startup.font = false then false else true
    match frame_loop running initial_geometry frames with
    | none => RunResult.running
    | some _ => RunResult.returned 0

/-! ## Sequences of flatten operations and proof devices -/

/-- A sequence of flatten operations within one frame: the `queue_text_sequence` calls
made, each with its node and tint, applied in order. A call `queue_text g seqs colour`
is the sequence of its nodes, each with `colour`. -/
def queue_all (g : GeometryData) (ops : List (TTF_GPUAtlasDrawSequence × SDL_FColor)) :
    GeometryData :=
  ops.foldl (fun g op => queue_text_sequence g op.1 op.2) g

/-- Proof device: the copy of `n` elements of `src` to the positions `base + i`, with
no wrap-around. -/
def copy_block {α : Type} (dst : Nat → α) (base : Nat) (src : Nat → α) (n : Nat) : Nat → α :=
  (List.range n).foldl (fun mem i => store mem (base + i) (src i)) dst

/-- Proof device: the effect of appending a list of blocks `(src, n)` one after the
other to an array with a running count, each by `copy_block` at the current count. -/
def append_blocks {α : Type} (st : (Nat → α) × Nat) (blocks : List ((Nat → α) × Nat)) :
    (Nat → α) × Nat :=
  blocks.foldl (fun s b => (copy_block s.1 s.2 b.1 b.2, s.2 + b.2)) st

/-- Proof device: the calls the loop of `draw` adds when entered with the offsets
`index_offset` and `vertex_offset`. -/
def loop_calls : Nat → Nat → List TTF_GPUAtlasDrawSequence → List GpuCall
  | _, _, [] => []
  | index_offset, vertex_offset, seq :: rest =>
      GpuCall.BindGPUFragmentSamplers 0 seq.atlas_texture 1 ::
      GpuCall.DrawGPUIndexedPrimitives (to_Uint32 seq.num_indices) 1
        (to_Uint32 index_offset) (int_value vertex_offset) 0 ::
      loop_calls (int_add index_offset seq.num_indices)
        (int_add vertex_offset seq.num_vertices) rest

/-- Proof device: the indexed draws of the loop entered with the given offsets. -/
def loop_draws : Nat → Nat → List TTF_GPUAtlasDrawSequence → List DrawCall
  | _, _, [] => []
  | index_offset, vertex_offset, seq :: rest =>
      { num_indices := to_Uint32 seq.num_indices, index_offset := to_Uint32 index_offset,
        vertex_offset := int_value vertex_offset, texture := some seq.atlas_texture } ::
      loop_draws (int_add index_offset seq.num_indices)
        (int_add vertex_offset seq.num_vertices) rest

/-! ## Example inputs -/

/-- A node with 4 vertices and 6 indices (one glyph quad) on texture `1`. -/
def node_A : TTF_GPUAtlasDrawSequence :=
  { atlas_texture := 1
    xy := fun i => ⟨100 + i, 200 + i⟩
    uv := fun i => ⟨300 + i, 400 + i⟩
    num_vertices := 4
    indices := fun k => [0, 1, 2, 2, 1, 3].getD k 0
    num_indices := 6 }

/-- A node with 6 vertices and 9 indices (three triangles) on texture `2`. -/
def node_B : TTF_GPUAtlasDrawSequence :=
  { atlas_texture := 2
    xy := fun i => ⟨500 + i, 600 + i⟩
    uv := fun i => ⟨700 + i, 800 + i⟩
    num_vertices := 6
    indices := fun k => [0, 1, 2, 2, 1, 3, 3, 4, 5].getD k 0
    num_indices := 9 }

/-- A text run of `glyphs` glyph quads on one atlas texture: four vertices and six
indices (two triangles) per glyph, the indices local to the node. -/
def glyph_run (glyphs : Nat) : TTF_GPUAtlasDrawSequence :=
  { atlas_texture := 1
    xy := fun i => ⟨i, 2 * i⟩
    uv := fun i => ⟨i % 4, i / 4⟩
    num_vertices := 4 * glyphs
    indices := fun k => ((4 * (k / 6) : Nat) : Int) + [0, 1, 2, 2, 1, 3].getD (k % 6) 0
    num_indices := 6 * glyphs }

/-- A node with 1500000000 vertices and 1500000000 indices on texture `3`; both counts
are representable in an `int`. -/
def huge_node : TTF_GPUAtlasDrawSequence :=
  { atlas_texture := 3
    xy := fun i => ⟨i, i⟩
    uv := fun i => ⟨i, i⟩
    num_vertices := 1500000000
    indices := fun k => ((k % 1500000000 : Nat) : Int)
    num_indices := 1500000000 }

/-- A node with no vertex and a single index, of value 7, on texture `4`. -/
def one_index_node : TTF_GPUAtlasDrawSequence :=
  { atlas_texture := 4
    xy := fun _ => ⟨0, 0⟩
    uv := fun _ => ⟨0, 0⟩
    num_vertices := 0
    indices := fun _ => 7
    num_indices := 1 }

/-- A geometry buffer over zero-filled memory that holds no vertex and `INT_MAX`
indices. -/
def full_index_geometry : GeometryData :=
  { vertices := fun _ => zero_vertex
    vertex_count := 0
    indices := fun _ => 0
    index_count := 2147483647 }

/-- A startup in which every call succeeds. -/
def startup_ok : StartupOutcome :=
  { base_path := true, sdl_init := true, window := true, device := true,
    claim_window := true, vertex_shader := true, fragment_shader := true,
    pipeline := true, vertex_buffer := true, index_buffer := true,
    transfer_buffer := true, sampler := true, ttf_init := true, font := true,
    text_engine := true, text := true }

/-- A startup in which only `TTF_OpenFont` fails. -/
def startup_font_failure : StartupOutcome := { startup_ok with font := false }

/-- A startup in which `SDL_GetBasePath` fails. -/
def startup_base_path_failure : StartupOutcome := { startup_ok with base_path := false }

/-- A frame that receives the quit event. -/
def quit_frame : FrameInput :=
  { events := [Event.quit], sequence := [node_A], swapchain_texture := some 7 }

/-! ## Lemmas on `int` arithmetic within range -/

theorem int_add_of_le (a b : Nat) (h : a + b ≤ INT_MAX) : int_add a b = a + b := by
  unfold int_add
  unfold INT_MAX at h
  apply Nat.mod_eq_of_lt
  omega

theorem int_value_of_le (p : Nat) (h : p ≤ INT_MAX) : int_value p = (p : Int) := by
  unfold INT_MAX at h
  have h1 : p % 2 ^ 32 = p := Nat.mod_eq_of_lt (by omega)
  have h2 : p < 2 ^ 31 := by omega
  unfold int_value
  rw [h1, if_pos h2]

theorem to_Uint32_of_le (n : Nat) (h : n ≤ INT_MAX) : to_Uint32 n = n := by
  unfold to_Uint32
  unfold INT_MAX at h
  apply Nat.mod_eq_of_lt
  omega

theorem to_size_t_of_le (p : Nat) (h : p ≤ INT_MAX) : to_size_t p = p := by
  unfold to_size_t
  rw [int_value_of_le p h]
  unfold INT_MAX at h
  omega

theorem size_t_mul_of_le (size count : Nat) (hs : size ≤ 36) (h : count ≤ INT_MAX) :
    size_t_mul size count = size * count := by
  unfold size_t_mul
  rw [to_size_t_of_le count h]
  unfold INT_MAX at h
  apply Nat.mod_eq_of_lt
  have h1 : size * count ≤ 36 * 2147483647 := Nat.mul_le_mul hs h
  omega

/-! ## Lemmas on stores and block copies -/

theorem store_at_natCast {α : Type} (mem : Nat → α) (p : Nat) (v : α) :
    store_at mem (p : Int) v = store mem p v := by
  unfold store_at
  rw [if_pos (Int.ofNat_nonneg p), Int.toNat_ofNat]

theorem SDL_memcpy_natCast {α : Type} (dst : Nat → α) (base : Nat) (src : Nat → α) (n : Nat) :
    SDL_memcpy dst (base : Int) src n = copy_block dst base src n := by
  unfold SDL_memcpy copy_block
  apply List.foldl_ext
  intro mem i _
  rw [← Int.ofNat_add, store_at_natCast]

theorem copy_block_apply {α : Type} (dst : Nat → α) (base : Nat) (src : Nat → α) (n p : Nat) :
    copy_block dst base src n p =
      if base ≤ p ∧ p < base + n then src (p - base) else dst p := by
  unfold copy_block
  induction n with
  | zero =>
    have h : ¬ (base ≤ p ∧ p < base + 0) := by omega
    simp only [List.range_zero, List.foldl_nil]
    rw [if_neg h]
  | succ n ih =>
    rw [List.range_succ, List.foldl_append]
    simp only [List.foldl_cons, List.foldl_nil, store]
    by_cases hp : p = base + n
    · subst hp
      have h : base ≤ base + n ∧ base + n < base + (n + 1) := by omega
      simp [h]
    · rw [if_neg hp, ih]
      by_cases h : base ≤ p ∧ p < base + n
      · have h2 : base ≤ p ∧ p < base + (n + 1) := by omega
        rw [if_pos h, if_pos h2]
      · have h2 : ¬ (base ≤ p ∧ p < base + (n + 1)) := by omega
        rw [if_neg h, if_neg h2]

theorem append_blocks_count {α : Type} (blocks : List ((Nat → α) × Nat)) (mem : Nat → α)
    (count : Nat) :
    (append_blocks (mem, count) blocks).2 = count + (blocks.map Prod.snd).sum := by
  induction blocks generalizing mem count with
  | nil => simp [append_blocks]
  | cons b rest ih =>
    have h := ih (copy_block mem count b.1 b.2) (count + b.2)
    simp only [append_blocks, List.foldl_cons] at h ⊢
    rw [h]
    simp [Nat.add_assoc]

theorem append_blocks_outside {α : Type} (blocks : List ((Nat → α) × Nat)) (mem : Nat → α)
    (count p : Nat) (hp : p < count ∨ count + (blocks.map Prod.snd).sum ≤ p) :
    (append_blocks (mem, count) blocks).1 p = mem p := by
  induction blocks generalizing mem count with
  | nil => simp [append_blocks]
  | cons b rest ih =>
    simp only [List.map_cons, List.sum_cons] at hp
    have h := ih (copy_block mem count b.1 b.2) (count + b.2) (by omega)
    simp only [append_blocks, List.foldl_cons] at h ⊢
    rw [h, copy_block_apply]
    have h2 : ¬ (count ≤ p ∧ p < count + b.2) := by omega
    rw [if_neg h2]

theorem append_blocks_block {α : Type} (blocks : List ((Nat → α) × Nat)) (mem : Nat → α)
    (count j i : Nat) (hj : j < blocks.length) (hi : i < (blocks.get ⟨j, hj⟩).2) :
    (append_blocks (mem, count) blocks).1
        (count + ((blocks.take j).map Prod.snd).sum + i) = (blocks.get ⟨j, hj⟩).1 i := by
  induction blocks generalizing mem count j with
  | nil => simp at hj
  | cons b rest ih =>
    cases j with
    | zero =>
      simp only [List.get_eq_getElem, List.getElem_cons_zero] at hi ⊢
      have h := append_blocks_outside rest (copy_block mem count b.1 b.2) (count + b.2)
        (count + i) (by omega)
      simp only [append_blocks, List.foldl_cons, List.take_zero, List.map_nil, List.sum_nil,
        Nat.add_zero] at h ⊢
      rw [h, copy_block_apply]
      have h2 : count ≤ count + i ∧ count + i < count + b.2 := by omega
      rw [if_pos h2, Nat.add_sub_cancel_left]
    | succ j =>
      simp only [List.get_eq_getElem, List.getElem_cons_succ, List.length_cons] at hi hj ⊢
      have h := ih (copy_block mem count b.1 b.2) (count + b.2) j (by omega)
        (by simpa using hi)
      simp only [append_blocks, List.foldl_cons, List.take_succ_cons, List.map_cons,
        List.sum_cons, List.get_eq_getElem] at h ⊢
      rw [← h, ← Nat.add_assoc]

theorem append_blocks_flat {α : Type} (blocks : List ((Nat → α) × Nat)) (mem : Nat → α)
    (count : Nat) :
    (List.range (blocks.map Prod.snd).sum).map
        (fun k => (append_blocks (mem, count) blocks).1 (count + k)) =
      blocks.flatMap (fun b => (List.range b.2).map b.1) := by
  induction blocks generalizing mem count with
  | nil => simp
  | cons b rest ih =>
    simp only [List.map_cons, List.sum_cons, List.flatMap_cons, List.range_add,
      List.map_append, List.map_map]
    congr 1
    · apply List.map_congr_left
      intro k hk
      have hk2 : k < b.2 := List.mem_range.mp hk
      have h := append_blocks_outside rest (copy_block mem count b.1 b.2) (count + b.2)
        (count + k) (by omega)
      simp only [append_blocks, List.foldl_cons] at h ⊢
      rw [h, copy_block_apply]
      have h2 : count ≤ count + k ∧ count + k < count + b.2 := by omega
      rw [if_pos h2, Nat.add_sub_cancel_left]
    · have h := ih (copy_block mem count b.1 b.2) (count + b.2)
      rw [← h]
      apply List.map_congr_left
      intro k _
      simp only [append_blocks, List.foldl_cons, Function.comp, ← Nat.add_assoc]

/-! ## Lemmas on the flattener -/

theorem queue_text_cons (g : GeometryData) (seq : TTF_GPUAtlasDrawSequence)
    (rest : List TTF_GPUAtlasDrawSequence) (colour : SDL_FColor) :
    queue_text g (seq :: rest) colour = queue_text (queue_text_sequence g seq colour) rest colour :=
  rfl

theorem queue_text_sequence_vertices (g : GeometryData) (seq : TTF_GPUAtlasDrawSequence)
    (colour : SDL_FColor) (h : g.vertex_count + seq.num_vertices ≤ INT_MAX) :
    (queue_text_sequence g seq colour).vertices =
      copy_block g.vertices g.vertex_count (make_vertex seq colour) seq.num_vertices := by
  show (List.range seq.num_vertices).foldl
      (fun mem i => store_at mem (int_value (int_add g.vertex_count i))
        (make_vertex seq colour i)) g.vertices = _
  unfold copy_block
  apply List.foldl_ext
  intro mem i hi
  have hi2 : i < seq.num_vertices := List.mem_range.mp hi
  rw [int_add_of_le _ _ (by omega), int_value_of_le _ (by omega), store_at_natCast]

theorem queue_text_sequence_vertex_count (g : GeometryData) (seq : TTF_GPUAtlasDrawSequence)
    (colour : SDL_FColor) (h : g.vertex_count + seq.num_vertices ≤ INT_MAX) :
    (queue_text_sequence g seq colour).vertex_count = g.vertex_count + seq.num_vertices :=
  int_add_of_le _ _ h

theorem queue_text_sequence_indices (g : GeometryData) (seq : TTF_GPUAtlasDrawSequence)
    (colour : SDL_FColor) (h : g.index_count + seq.num_indices ≤ INT_MAX) :
    (queue_text_sequence g seq colour).indices =
      copy_block g.indices g.index_count seq.indices seq.num_indices := by
  show SDL_memcpy g.indices (int_value g.index_count) seq.indices seq.num_indices = _
  rw [int_value_of_le _ (by omega), SDL_memcpy_natCast]

theorem queue_text_sequence_index_count (g : GeometryData) (seq : TTF_GPUAtlasDrawSequence)
    (colour : SDL_FColor) (h : g.index_count + seq.num_indices ≤ INT_MAX) :
    (queue_text_sequence g seq colour).index_count = g.index_count + seq.num_indices :=
  int_add_of_le _ _ h

theorem queue_text_vertex_blocks (seqs : List TTF_GPUAtlasDrawSequence) (g : GeometryData)
    (colour : SDL_FColor)
    (h : g.vertex_count + (seqs.map (fun s => s.num_vertices)).sum ≤ INT_MAX) :
    ((queue_text g seqs colour).vertices, (queue_text g seqs colour).vertex_count) =
      append_blocks (g.vertices, g.vertex_count)
        (seqs.map (fun s => (make_vertex s colour, s.num_vertices))) := by
  induction seqs generalizing g with
  | nil => rfl
  | cons seq rest ih =>
    simp only [List.map_cons, List.sum_cons] at h
    have hc := queue_text_sequence_vertex_count g seq colour (by omega)
    have hm := queue_text_sequence_vertices g seq colour (by omega)
    rw [queue_text_cons, ih (queue_text_sequence g seq colour) (by rw [hc]; omega), hc, hm]
    rfl

theorem queue_text_index_blocks (seqs : List TTF_GPUAtlasDrawSequence) (g : GeometryData)
    (colour : SDL_FColor)
    (h : g.index_count + (seqs.map (fun s => s.num_indices)).sum ≤ INT_MAX) :
    ((queue_text g seqs colour).indices, (queue_text g seqs colour).index_count) =
      append_blocks (g.indices, g.index_count)
        (seqs.map (fun s => (s.indices, s.num_indices))) := by
  induction seqs generalizing g with
  | nil => rfl
  | cons seq rest ih =>
    simp only [List.map_cons, List.sum_cons] at h
    have hc := queue_text_sequence_index_count g seq colour (by omega)
    have hm := queue_text_sequence_indices g seq colour (by omega)
    rw [queue_text_cons, ih (queue_text_sequence g seq colour) (by rw [hc]; omega), hc, hm]
    rfl

theorem queue_text_vertex_count (seqs : List TTF_GPUAtlasDrawSequence) (g : GeometryData)
    (colour : SDL_FColor)
    (h : g.vertex_count + (seqs.map (fun s => s.num_vertices)).sum ≤ INT_MAX) :
    (queue_text g seqs colour).vertex_count =
      g.vertex_count + (seqs.map (fun s => s.num_vertices)).sum := by
  have h := congrArg Prod.snd (queue_text_vertex_blocks seqs g colour h)
  simp only [append_blocks_count, List.map_map] at h
  rw [h]
  rfl

theorem queue_text_index_count (seqs : List TTF_GPUAtlasDrawSequence) (g : GeometryData)
    (colour : SDL_FColor)
    (h : g.index_count + (seqs.map (fun s => s.num_indices)).sum ≤ INT_MAX) :
    (queue_text g seqs colour).index_count =
      g.index_count + (seqs.map (fun s => s.num_indices)).sum := by
  have h := congrArg Prod.snd (queue_text_index_blocks seqs g colour h)
  simp only [append_blocks_count, List.map_map] at h
  rw [h]
  rfl

/-! ## Lemmas on the dispatcher -/

theorem draw_loop_calls (seqs : List TTF_GPUAtlasDrawSequence) (st : DrawLoopState) :
    (draw_loop st seqs).calls = st.calls ++ loop_calls st.index_offset st.vertex_offset seqs := by
  induction seqs generalizing st with
  | nil => simp [draw_loop, loop_calls]
  | cons seq rest ih =>
    have h := ih (draw_loop_body st seq)
    simp only [draw_loop, List.foldl_cons] at h ⊢
    rw [h]
    simp [draw_loop_body, loop_calls]

theorem draw_loop_offsets_eq_counts (seqs : List TTF_GPUAtlasDrawSequence)
    (st : DrawLoopState) (g : GeometryData) (colour : SDL_FColor)
    (hi : st.index_offset = g.index_count) (hv : st.vertex_offset = g.vertex_count) :
    (draw_loop st seqs).index_offset = (queue_text g seqs colour).index_count ∧
    (draw_loop st seqs).vertex_offset = (queue_text g seqs colour).vertex_count := by
  induction seqs generalizing st g with
  | nil => exact ⟨hi, hv⟩
  | cons seq rest ih =>
    have h := ih (draw_loop_body st seq) (queue_text_sequence g seq colour)
      (by show int_add st.index_offset seq.num_indices = int_add g.index_count seq.num_indices
          rw [hi])
      (by show int_add st.vertex_offset seq.num_vertices =
            int_add g.vertex_count seq.num_vertices
          rw [hv])
    simp only [draw_loop, List.foldl_cons] at h ⊢
    exact h

theorem indexed_draws_loop_calls (seqs : List TTF_GPUAtlasDrawSequence)
    (bound : Option Texture) (index_offset vertex_offset : Nat) :
    indexed_draws bound
        (loop_calls index_offset vertex_offset seqs ++ [GpuCall.EndGPURenderPass]) =
      loop_draws index_offset vertex_offset seqs := by
  induction seqs generalizing bound index_offset vertex_offset with
  | nil => simp [loop_calls, loop_draws, indexed_draws]
  | cons seq rest ih =>
    simp [loop_calls, loop_draws, indexed_draws, ih]

theorem indexed_draws_draw (t : Texture) (num_matrices : Nat)
    (seqs : List TTF_GPUAtlasDrawSequence) :
    indexed_draws none (draw (some t) num_matrices seqs) = loop_draws 0 0 seqs := by
  simp only [draw, draw_loop_calls, draw_loop_entry, List.append_assoc, List.cons_append,
    List.nil_append, indexed_draws]
  exact indexed_draws_loop_calls seqs none 0 0

theorem loop_draws_length (seqs : List TTF_GPUAtlasDrawSequence) (io vo : Nat) :
    (loop_draws io vo seqs).length = seqs.length := by
  induction seqs generalizing io vo with
  | nil => rfl
  | cons seq rest ih => simp [loop_draws, ih]

theorem loop_draws_getElem? (seqs : List TTF_GPUAtlasDrawSequence) (io vo k : Nat)
    (hk : k < seqs.length)
    (hi : io + (seqs.map (fun s => s.num_indices)).sum ≤ INT_MAX)
    (hv : vo + (seqs.map (fun s => s.num_vertices)).sum ≤ INT_MAX) :
    (loop_draws io vo seqs)[k]? =
      some { num_indices := seqs[k].num_indices
             index_offset := io + ((seqs.take k).map (fun s => s.num_indices)).sum
             vertex_offset := ((vo + ((seqs.take k).map (fun s => s.num_vertices)).sum : Nat) : Int)
             texture := some seqs[k].atlas_texture } := by
  induction seqs generalizing io vo k with
  | nil => simp at hk
  | cons seq rest ih =>
    simp only [List.map_cons, List.sum_cons] at hi hv
    cases k with
    | zero =>
      simp only [loop_draws, List.getElem?_cons_zero, List.getElem_cons_zero, List.take_zero,
        List.map_nil, List.sum_nil, Nat.add_zero]
      rw [to_Uint32_of_le _ (by omega), to_Uint32_of_le _ (by omega),
        int_value_of_le _ (by omega)]
    | succ k =>
      simp only [List.length_cons, Nat.add_lt_add_iff_right] at hk
      simp only [loop_draws, List.getElem?_cons_succ, List.getElem_cons_succ,
        List.take_succ_cons, List.map_cons, List.sum_cons]
      rw [int_add_of_le _ _ (by omega), int_add_of_le _ _ (by omega),
        ih _ _ k hk (by omega) (by omega)]
      simp only [Nat.add_assoc]

/-! ## Lemmas on the layout -/

theorem sizeof_Vertex_eq : sizeof_Vertex = 36 := by decide

/-! ## Sums over prefixes -/

theorem sum_take_le (l : List Nat) (n : Nat) : (l.take n).sum ≤ l.sum := by
  have h := congrArg List.sum (List.take_append_drop n l)
  rw [List.sum_append] at h
  omega

theorem sum_take_add_getElem_le (l : List Nat) (j : Nat) (hj : j < l.length) :
    (l.take j).sum + l[j] ≤ l.sum := by
  have h := sum_take_le l (j + 1)
  rw [List.take_succ, List.getElem?_eq_getElem hj] at h
  simp only [Option.toList, List.sum_append, List.sum_cons, List.sum_nil, Nat.add_zero] at h
  exact h

/-! ## Lemmas on sequences of flatten operations -/

theorem queue_all_vertex_blocks (ops : List (TTF_GPUAtlasDrawSequence × SDL_FColor))
    (g : GeometryData)
    (h : g.vertex_count + (ops.map (fun op => op.1.num_vertices)).sum ≤ INT_MAX) :
    ((queue_all g ops).vertices, (queue_all g ops).vertex_count) =
      append_blocks (g.vertices, g.vertex_count)
        (ops.map (fun op => (make_vertex op.1 op.2, op.1.num_vertices))) := by
  induction ops generalizing g with
  | nil => rfl
  | cons op rest ih =>
    simp only [List.map_cons, List.sum_cons] at h
    have hc := queue_text_sequence_vertex_count g op.1 op.2 (by omega)
    have hm := queue_text_sequence_vertices g op.1 op.2 (by omega)
    have h2 := ih (queue_text_sequence g op.1 op.2) (by rw [hc]; omega)
    rw [hc, hm] at h2
    simp only [queue_all, List.foldl_cons] at h2 ⊢
    rw [h2]
    rfl

theorem queue_all_index_blocks (ops : List (TTF_GPUAtlasDrawSequence × SDL_FColor))
    (g : GeometryData)
    (h : g.index_count + (ops.map (fun op => op.1.num_indices)).sum ≤ INT_MAX) :
    ((queue_all g ops).indices, (queue_all g ops).index_count) =
      append_blocks (g.indices, g.index_count)
        (ops.map (fun op => (op.1.indices, op.1.num_indices))) := by
  induction ops generalizing g with
  | nil => rfl
  | cons op rest ih =>
    simp only [List.map_cons, List.sum_cons] at h
    have hc := queue_text_sequence_index_count g op.1 op.2 (by omega)
    have hm := queue_text_sequence_indices g op.1 op.2 (by omega)
    have h2 := ih (queue_text_sequence g op.1 op.2) (by rw [hc]; omega)
    rw [hc, hm] at h2
    simp only [queue_all, List.foldl_cons] at h2 ⊢
    rw [h2]
    rfl

theorem queue_text_eq_queue_all (seqs : List TTF_GPUAtlasDrawSequence) (g : GeometryData)
    (colour : SDL_FColor) :
    queue_text g seqs colour = queue_all g (seqs.map (fun s => (s, colour))) := by
  simp [queue_text, queue_all, List.foldl_map]

theorem queue_text_sequence_vertices_apply (g : GeometryData)
    (seq : TTF_GPUAtlasDrawSequence) (colour : SDL_FColor) (p : Nat)
    (h : g.vertex_count + seq.num_vertices ≤ INT_MAX) :
    (queue_text_sequence g seq colour).vertices p =
      if g.vertex_count ≤ p ∧ p < g.vertex_count + seq.num_vertices
      then make_vertex seq colour (p - g.vertex_count) else g.vertices p := by
  rw [queue_text_sequence_vertices g seq colour h, copy_block_apply]

theorem queue_text_sequence_indices_apply (g : GeometryData)
    (seq : TTF_GPUAtlasDrawSequence) (colour : SDL_FColor) (p : Nat)
    (h : g.index_count + seq.num_indices ≤ INT_MAX) :
    (queue_text_sequence g seq colour).indices p =
      if g.index_count ≤ p ∧ p < g.index_count + seq.num_indices
      then seq.indices (p - g.index_count) else g.indices p := by
  rw [queue_text_sequence_indices g seq colour h, copy_block_apply]

/-! ## Claims -/

/-- Counterexample to C1: for two nodes of 1500000000 vertices each followed by
`node_A`, the third indexed draw of `draw` is issued with `vertex_offset` -1294967296,
not with the sum 3000000000 of `num_vertices` of the two earlier nodes: the running
`int` offset has wrapped. -/
theorem draw_vertex_offset_wraps_counterexample :
    (indexed_draws none (draw (some 7) 2 [huge_node, huge_node, node_A]))[2]? =
      some { num_indices := 6, index_offset := 3000000000, vertex_offset := -1294967296,
             texture := some 1 } ∧
    (([huge_node, huge_node, node_A].take 2).map (fun s => s.num_vertices)).sum =
      3000000000 := by
  decide

/-- C1, amended: for every draw-sequence list whose `num_indices` sum to at most
`INT_MAX` and whose `num_vertices` sum to at most `INT_MAX`, when a swapchain texture is
acquired, `draw` issues exactly one indexed draw call per node of the list, in list
order; the k-th call is issued with the k-th node's atlas texture bound, draws that
node's `num_indices` indices, and has `index_offset` and `vertex_offset` equal to the
sums of `num_indices` and of `num_vertices` of the earlier nodes. For a node with 4
vertices, 6 indices and texture `T1` followed by one with 6 vertices, 9 indices and
texture `T2` the calls are `(6, 0, 0, T1)` then `(9, 6, 4, T2)`, and the empty list
yields no draw call. -/
theorem draw_one_indexed_draw_per_node (t : Texture) (num_matrices : Nat)
    (seqs : List TTF_GPUAtlasDrawSequence)
    (hi : (seqs.map (fun s => s.num_indices)).sum ≤ INT_MAX)
    (hv : (seqs.map (fun s => s.num_vertices)).sum ≤ INT_MAX) :
    (indexed_draws none (draw (some t) num_matrices seqs)).length = seqs.length ∧
    (∀ (k : Nat) (hk : k < seqs.length),
      (indexed_draws none (draw (some t) num_matrices seqs))[k]? =
        some { num_indices := seqs[k].num_indices
               index_offset := ((seqs.take k).map (fun s => s.num_indices)).sum
               vertex_offset := ((((seqs.take k).map (fun s => s.num_vertices)).sum : Nat) : Int)
               texture := some seqs[k].atlas_texture }) ∧
    (∀ (T1 T2 : Texture) (xyA uvA xyB uvB : Nat → Vec2) (indicesA indicesB : Nat → Int),
      indexed_draws none (draw (some t) num_matrices
          [ { atlas_texture := T1, xy := xyA, uv := uvA, num_vertices := 4,
              indices := indicesA, num_indices := 6 },
            { atlas_texture := T2, xy := xyB, uv := uvB, num_vertices := 6,
              indices := indicesB, num_indices := 9 } ]) =
        [ { num_indices := 6, index_offset := 0, vertex_offset := 0, texture := some T1 },
          { num_indices := 9, index_offset := 6, vertex_offset := 4, texture := some T2 } ]) ∧
    indexed_draws none (draw (some t) num_matrices []) = [] := by
  refine ⟨?_, ?_, ?_, ?_⟩
  · rw [indexed_draws_draw, loop_draws_length]
  · intro k hk
    rw [indexed_draws_draw, loop_draws_getElem? seqs 0 0 k hk (by omega) (by omega)]
    simp
  · intro T1 T2 xyA uvA xyB uvB indicesA indicesB
    rw [indexed_draws_draw]
    rfl
  · rw [indexed_draws_draw]
    rfl

/-- Witness of amended C1: `node_A` then `node_B`. -/
theorem draw_one_indexed_draw_per_node_witness :
    ([node_A, node_B].map (fun s => s.num_indices)).sum ≤ INT_MAX ∧
    ([node_A, node_B].map (fun s => s.num_vertices)).sum ≤ INT_MAX ∧
    (indexed_draws none (draw (some 7) 2 [node_A, node_B])).length = 2 ∧
    (indexed_draws none (draw (some 7) 2 [node_A, node_B]))[1]? =
      some { num_indices := 9, index_offset := 6, vertex_offset := 4, texture := some 2 } :=
  have h := draw_one_indexed_draw_per_node 7 2 [node_A, node_B] (by decide) (by decide)
  ⟨by decide, by decide, h.1, h.2.1 1 (by decide)⟩

/-- Counterexample to C2: `queue_text` of a single node with no vertex and one index
into a buffer whose `index_count` is `INT_MAX` stores the index at position 2147483647
and leaves the `int` field `index_count` at -2147483648, not at the sum 2147483648: the
`+=` on `int` has wrapped. -/
theorem queue_text_counts_wrap_counterexample :
    full_index_geometry.index_count +
      ([one_index_node].map (fun s => s.num_indices)).sum = 2147483648 ∧
    int_value (queue_text full_index_geometry [one_index_node] main_colour).index_count =
      -2147483648 ∧
    (queue_text full_index_geometry [one_index_node] main_colour).indices 2147483647 = 7 ∧
    (queue_text full_index_geometry [one_index_node] main_colour).vertex_count = 0 := by
  decide

/-- C2, amended: for every draw-sequence list and every geometry buffer with counts
`(v0, i0)` such that `v0` plus the sum of `num_vertices` and `i0` plus the sum of
`num_indices` are at most `INT_MAX`, after `queue_text` the buffer's `vertex_count` is
`v0` plus the sum of `num_vertices` over all nodes and its `index_count` is `i0` plus
the sum of `num_indices` over all nodes. Flattening a node with 4 vertices and 6 indices
and a node with 6 vertices and 9 indices into an empty buffer gives counts 10 and 15,
and flattening the empty list into an empty buffer leaves both counts at zero. -/
theorem queue_text_counts (seqs : List TTF_GPUAtlasDrawSequence) (g : GeometryData)
    (colour : SDL_FColor)
    (hv : g.vertex_count + (seqs.map (fun s => s.num_vertices)).sum ≤ INT_MAX)
    (hi : g.index_count + (seqs.map (fun s => s.num_indices)).sum ≤ INT_MAX) :
    (queue_text g seqs colour).vertex_count =
      g.vertex_count + (seqs.map (fun s => s.num_vertices)).sum ∧
    (queue_text g seqs colour).index_count =
      g.index_count + (seqs.map (fun s => s.num_indices)).sum ∧
    int_value (queue_text g seqs colour).vertex_count =
      ((g.vertex_count + (seqs.map (fun s => s.num_vertices)).sum : Nat) : Int) ∧
    int_value (queue_text g seqs colour).index_count =
      ((g.index_count + (seqs.map (fun s => s.num_indices)).sum : Nat) : Int) ∧
    (∀ (vertices : Nat → Vertex) (indices : Nat → Int) (T1 T2 : Texture)
        (xyA uvA xyB uvB : Nat → Vec2) (indicesA indicesB : Nat → Int),
      (queue_text (empty_geometry vertices indices)
          [ { atlas_texture := T1, xy := xyA, uv := uvA, num_vertices := 4,
              indices := indicesA, num_indices := 6 },
            { atlas_texture := T2, xy := xyB, uv := uvB, num_vertices := 6,
              indices := indicesB, num_indices := 9 } ] colour).vertex_count = 10 ∧
      (queue_text (empty_geometry vertices indices)
          [ { atlas_texture := T1, xy := xyA, uv := uvA, num_vertices := 4,
              indices := indicesA, num_indices := 6 },
            { atlas_texture := T2, xy := xyB, uv := uvB, num_vertices := 6,
              indices := indicesB, num_indices := 9 } ] colour).index_count = 15) ∧
    (∀ (vertices : Nat → Vertex) (indices : Nat → Int),
      (queue_text (empty_geometry vertices indices) [] colour).vertex_count = 0 ∧
      (queue_text (empty_geometry vertices indices) [] colour).index_count = 0) := by
  have h1 := queue_text_vertex_count seqs g colour hv
  have h2 := queue_text_index_count seqs g colour hi
  refine ⟨h1, h2, ?_, ?_, ?_, ?_⟩
  · rw [h1]
    exact int_value_of_le _ hv
  · rw [h2]
    exact int_value_of_le _ hi
  · intro vertices indices T1 T2 xyA uvA xyB uvB indicesA indicesB
    exact ⟨rfl, rfl⟩
  · intro vertices indices
    exact ⟨rfl, rfl⟩

/-- Witness of amended C2: `node_A` then `node_B` flattened into the empty buffer of
`main`. -/
theorem queue_text_counts_witness :
    initial_geometry.vertex_count + ([node_A, node_B].map (fun s => s.num_vertices)).sum
      ≤ INT_MAX ∧
    initial_geometry.index_count + ([node_A, node_B].map (fun s => s.num_indices)).sum
      ≤ INT_MAX ∧
    (queue_text initial_geometry [node_A, node_B] main_colour).vertex_count = 10 ∧
    (queue_text initial_geometry [node_A, node_B] main_colour).index_count = 15 :=
  have h := queue_text_counts [node_A, node_B] initial_geometry main_colour
    (by decide) (by decide)
  ⟨by decide, by decide, h.1, h.2.1⟩

/-- C3: for every draw-sequence list, tint and geometry buffer whose capacity is not
exceeded by the append, after `queue_text` the first `vertex_count` vertices and first
`index_count` indices are unchanged; the vertices from the old `vertex_count` on are, in
list order and node-internal order, one vertex per input point with
`pos = (xy[i].x, xy[i].y, 0)`, the given tint and `uv = uv[i]`; and the indices from the
old `index_count` on are the concatenation, in list order, of the nodes' index arrays
with every value unchanged. -/
theorem queue_text_contents (seqs : List TTF_GPUAtlasDrawSequence) (g : GeometryData)
    (colour : SDL_FColor)
    (hv : g.vertex_count + (seqs.map (fun s => s.num_vertices)).sum ≤ MAX_VERTEX_COUNT)
    (hi : g.index_count + (seqs.map (fun s => s.num_indices)).sum ≤ MAX_INDEX_COUNT) :
    (∀ p, p < g.vertex_count → (queue_text g seqs colour).vertices p = g.vertices p) ∧
    (∀ p, p < g.index_count → (queue_text g seqs colour).indices p = g.indices p) ∧
    (List.range (seqs.map (fun s => s.num_vertices)).sum).map
        (fun k => (queue_text g seqs colour).vertices (g.vertex_count + k)) =
      seqs.flatMap (fun s => (List.range s.num_vertices).map
        (fun i => ({ pos := { x := (s.xy i).x, y := (s.xy i).y, z := 0 }
                     colour := colour
                     uv := s.uv i } : Vertex))) ∧
    (List.range (seqs.map (fun s => s.num_indices)).sum).map
        (fun k => (queue_text g seqs colour).indices (g.index_count + k)) =
      seqs.flatMap (fun s => (List.range s.num_indices).map s.indices) := by
  have hv2 : g.vertex_count + (seqs.map (fun s => s.num_vertices)).sum ≤ INT_MAX :=
    Nat.le_trans hv (by decide)
  have hi2 : g.index_count + (seqs.map (fun s => s.num_indices)).sum ≤ INT_MAX :=
    Nat.le_trans hi (by decide)
  have hvb := congrArg Prod.fst (queue_text_vertex_blocks seqs g colour hv2)
  have hib := congrArg Prod.fst (queue_text_index_blocks seqs g colour hi2)
  simp only at hvb hib
  refine ⟨?_, ?_, ?_, ?_⟩
  · intro p hp
    rw [hvb]
    exact append_blocks_outside _ _ _ _ (Or.inl hp)
  · intro p hp
    rw [hib]
    exact append_blocks_outside _ _ _ _ (Or.inl hp)
  · have h := append_blocks_flat
      (seqs.map (fun s => (make_vertex s colour, s.num_vertices))) g.vertices g.vertex_count
    simp only [List.map_map, Function.comp, List.flatMap_map] at h
    rw [hvb]
    exact h
  · have h := append_blocks_flat
      (seqs.map (fun s => (s.indices, s.num_indices))) g.indices g.index_count
    simp only [List.map_map, Function.comp, List.flatMap_map] at h
    rw [hib]
    exact h

/-- Witness of C3: `node_A` then `node_B` flattened into the empty buffer of `main`. -/
theorem queue_text_contents_witness :
    initial_geometry.vertex_count + ([node_A, node_B].map (fun s => s.num_vertices)).sum
      ≤ MAX_VERTEX_COUNT ∧
    initial_geometry.index_count + ([node_A, node_B].map (fun s => s.num_indices)).sum
      ≤ MAX_INDEX_COUNT ∧
    (List.range 10).map
        (fun k => ((queue_text initial_geometry [node_A, node_B] main_colour).vertices
          (0 + k)).pos) =
      [⟨100, 200, 0⟩, ⟨101, 201, 0⟩, ⟨102, 202, 0⟩, ⟨103, 203, 0⟩, ⟨500, 600, 0⟩,
       ⟨501, 601, 0⟩, ⟨502, 602, 0⟩, ⟨503, 603, 0⟩, ⟨504, 604, 0⟩, ⟨505, 605, 0⟩] ∧
    (List.range 15).map
        (fun k => (queue_text initial_geometry [node_A, node_B] main_colour).indices (0 + k)) =
      [0, 1, 2, 2, 1, 3, 0, 1, 2, 2, 1, 3, 3, 4, 5] :=
  have h := queue_text_contents [node_A, node_B] initial_geometry main_colour
    (by decide) (by decide)
  ⟨by decide, by decide,
    by simpa using congrArg (List.map (fun v => v.pos)) h.2.2.1,
    h.2.2.2⟩

/-- C4: for a draw-sequence list whose index values are non-negative and below their
node's `num_vertices`, flattened by `queue_text` into an empty buffer within capacity:
for every node `j`, `draw` issues a `j`-th indexed draw, and for every `k` below the
node's `num_indices` the flattened index at position `index_offset + k` is the node's
own `indices[k]`, and that index plus `vertex_offset` (the offsets of the `j`-th draw)
is non-negative, below the final `vertex_count`, and selects the flattened vertex whose
position and uv are those of node `j`'s point number `indices[k]`. -/
theorem base_vertex_resolves_node_local_indices (seqs : List TTF_GPUAtlasDrawSequence)
    (vertices : Nat → Vertex) (indices : Nat → Int) (colour : SDL_FColor)
    (t : Texture) (num_matrices : Nat)
    (hidx : ∀ s ∈ seqs, ∀ k, k < s.num_indices →
      0 ≤ s.indices k ∧ s.indices k < (s.num_vertices : Int))
    (hv : (seqs.map (fun s => s.num_vertices)).sum ≤ MAX_VERTEX_COUNT)
    (hi : (seqs.map (fun s => s.num_indices)).sum ≤ MAX_INDEX_COUNT) :
    ∀ (j : Nat) (hj : j < seqs.length),
      ∃ call : DrawCall,
        (indexed_draws none (draw (some t) num_matrices seqs))[j]? = some call ∧
        ∀ k, k < seqs[j].num_indices →
          (queue_text (empty_geometry vertices indices) seqs colour).indices (call.index_offset + k) =
            seqs[j].indices k ∧
          0 ≤ (queue_text (empty_geometry vertices indices) seqs colour).indices (call.index_offset + k) +
            (call.vertex_offset : Int) ∧
          (queue_text (empty_geometry vertices indices) seqs colour).indices (call.index_offset + k) +
            (call.vertex_offset : Int) <
            ((queue_text (empty_geometry vertices indices) seqs colour).vertex_count : Int) ∧
          ((queue_text (empty_geometry vertices indices) seqs colour).vertices
            ((queue_text (empty_geometry vertices indices) seqs colour).indices (call.index_offset + k) +
              (call.vertex_offset : Int)).toNat).pos =
            { x := (seqs[j].xy (seqs[j].indices k).toNat).x
              y := (seqs[j].xy (seqs[j].indices k).toNat).y
              z := 0 } ∧
          ((queue_text (empty_geometry vertices indices) seqs colour).vertices
            ((queue_text (empty_geometry vertices indices) seqs colour).indices (call.index_offset + k) +
              (call.vertex_offset : Int)).toNat).uv =
            seqs[j].uv (seqs[j].indices k).toNat := by
  intro j hj
  have hv2 : 0 + (seqs.map (fun s => s.num_vertices)).sum ≤ INT_MAX :=
    Nat.le_trans (by omega) (show MAX_VERTEX_COUNT ≤ INT_MAX by decide)
  have hi2 : 0 + (seqs.map (fun s => s.num_indices)).sum ≤ INT_MAX :=
    Nat.le_trans (by omega) (show MAX_INDEX_COUNT ≤ INT_MAX by decide)
  refine ⟨{ num_indices := seqs[j].num_indices
            index_offset := 0 + ((seqs.take j).map (fun s => s.num_indices)).sum
            vertex_offset :=
              ((0 + ((seqs.take j).map (fun s => s.num_vertices)).sum : Nat) : Int)
            texture := some seqs[j].atlas_texture }, ?_, ?_⟩
  · rw [indexed_draws_draw]
    exact loop_draws_getElem? seqs 0 0 j hj hi2 hv2
  · intro k hk
    simp only [Nat.zero_add, List.map_take]
    have hvb : (queue_text (empty_geometry vertices indices) seqs colour).vertices =
        (append_blocks (vertices, 0)
          (seqs.map (fun s => (make_vertex s colour, s.num_vertices)))).1 :=
      congrArg Prod.fst
        (queue_text_vertex_blocks seqs (empty_geometry vertices indices) colour hv2)
    have hib : (queue_text (empty_geometry vertices indices) seqs colour).indices =
        (append_blocks (indices, 0) (seqs.map (fun s => (s.indices, s.num_indices)))).1 :=
      congrArg Prod.fst
        (queue_text_index_blocks seqs (empty_geometry vertices indices) colour hi2)
    have hcount : (queue_text (empty_geometry vertices indices) seqs colour).vertex_count =
        (seqs.map (fun s => s.num_vertices)).sum := by
      rw [queue_text_vertex_count _ _ _ hv2]
      exact Nat.zero_add _
    obtain ⟨hlo, hhi⟩ := hidx seqs[j] (List.getElem_mem hj) k hk
    -- the flattened index is the node's own index
    have hindex : (queue_text (empty_geometry vertices indices) seqs colour).indices
        (((seqs.map (fun s => s.num_indices)).take j).sum + k) = seqs[j].indices k := by
      have h := append_blocks_block (seqs.map (fun s => (s.indices, s.num_indices)))
        indices 0 j k (by simpa using hj) (by simpa using hk)
      simp only [List.get_eq_getElem, List.getElem_map, List.map_take, List.map_map,
        Function.comp_def, Nat.zero_add] at h
      rw [hib]
      exact h
    -- the vertex reached through the base vertex is the node's own point
    obtain ⟨n, hn⟩ := Int.eq_ofNat_of_zero_le hlo
    have hn_lt : n < seqs[j].num_vertices := by
      rw [hn] at hhi
      exact_mod_cast hhi
    have hvertex : (queue_text (empty_geometry vertices indices) seqs colour).vertices
        (((seqs.map (fun s => s.num_vertices)).take j).sum + n) =
        make_vertex seqs[j] colour n := by
      have h := append_blocks_block
        (seqs.map (fun s => (make_vertex s colour, s.num_vertices)))
        vertices 0 j n (by simpa using hj) (by simpa using hn_lt)
      simp only [List.get_eq_getElem, List.getElem_map, List.map_take, List.map_map,
        Function.comp_def, Nat.zero_add] at h
      rw [hvb]
      exact h
    have hsum := sum_take_add_getElem_le (seqs.map (fun s => s.num_vertices)) j
      (by simpa using hj)
    simp only [List.getElem_map] at hsum
    rw [hindex, hcount, hn]
    have htonat :
        ((n : Int) + ((((seqs.map (fun s => s.num_vertices)).take j).sum : Nat) : Int)).toNat
          = ((seqs.map (fun s => s.num_vertices)).take j).sum + n := by
      omega
    rw [htonat, hvertex, Int.toNat_ofNat]
    refine ⟨rfl, by omega, by omega, rfl, rfl⟩

/-- Witness of C4: `node_A` then `node_B`; the last index of `node_B` (local value 5,
stored at position 6 + 8) with the base vertex 4 of the second draw selects the
flattened vertex 9, which is point 5 of `node_B`. -/
theorem base_vertex_resolves_node_local_indices_witness :
    (∀ s ∈ [node_A, node_B], ∀ k, k < s.num_indices →
      0 ≤ s.indices k ∧ s.indices k < (s.num_vertices : Int)) ∧
    ([node_A, node_B].map (fun s => s.num_vertices)).sum ≤ MAX_VERTEX_COUNT ∧
    ([node_A, node_B].map (fun s => s.num_indices)).sum ≤ MAX_INDEX_COUNT ∧
    (indexed_draws none (draw (some 7) 2 [node_A, node_B]))[1]? =
      some { num_indices := 9, index_offset := 6, vertex_offset := 4, texture := some 2 } ∧
    (queue_text initial_geometry [node_A, node_B] main_colour).indices (6 + 8) = 5 ∧
    ((queue_text initial_geometry [node_A, node_B] main_colour).vertices 9).pos =
      ⟨505, 605, 0⟩ ∧
    ((queue_text initial_geometry [node_A, node_B] main_colour).vertices 9).uv =
      ⟨705, 805⟩ := by
  have hidx : ∀ s ∈ [node_A, node_B], ∀ k, k < s.num_indices →
      0 ≤ s.indices k ∧ s.indices k < (s.num_vertices : Int) := by decide
  obtain ⟨call, hcall, h⟩ := base_vertex_resolves_node_local_indices [node_A, node_B]
    (fun _ => zero_vertex) (fun _ => 0) main_colour 7 2 hidx (by decide) (by decide)
    1 (by decide)
  have hdraw : (indexed_draws none (draw (some 7) 2 [node_A, node_B]))[1]? =
      some { num_indices := 9, index_offset := 6, vertex_offset := 4, texture := some 2 } := by
    decide
  have hc : call =
      { num_indices := 9, index_offset := 6, vertex_offset := 4, texture := some 2 } := by
    rw [hdraw] at hcall
    exact (Option.some.inj hcall).symm
  subst hc
  have h8 := h 8 (by decide)
  exact ⟨hidx, by decide, by decide, hdraw, h8.1, h8.2.2.2.1, h8.2.2.2.2⟩

/-- C5: for every draw-sequence list, after `queue_text` on an empty geometry buffer
and `draw` on the same list, the final value of the running `index_offset` of `draw`
equals the `index_count` produced by `queue_text`, and the final value of its running
`vertex_offset` equals the `vertex_count` produced by `queue_text`. -/
theorem draw_offsets_match_queue_text_counts (seqs : List TTF_GPUAtlasDrawSequence)
    (vertices : Nat → Vertex) (indices : Nat → Int) (colour : SDL_FColor)
    (t : Texture) (num_matrices : Nat) :
    (draw_loop (draw_loop_entry t num_matrices) seqs).index_offset =
      (queue_text (empty_geometry vertices indices) seqs colour).index_count ∧
    (draw_loop (draw_loop_entry t num_matrices) seqs).vertex_offset =
      (queue_text (empty_geometry vertices indices) seqs colour).vertex_count := by
  exact draw_loop_offsets_eq_counts seqs (draw_loop_entry t num_matrices)
    (empty_geometry vertices indices) colour rfl rfl

/-- Counterexample to C6: one `queue_text` call on the empty buffer of `main` with a
single node of 1001 glyphs (4004 vertices, 6006 indices) leaves `vertex_count` above
`MAX_VERTEX_COUNT` and `index_count` above `MAX_INDEX_COUNT`, and has stored a vertex
at position 4000 and an index at position 6000, beyond the two allocations. -/
theorem capacity_overrun_counterexample :
    MAX_VERTEX_COUNT <
      (queue_text initial_geometry [glyph_run 1001] main_colour).vertex_count ∧
    MAX_INDEX_COUNT <
      (queue_text initial_geometry [glyph_run 1001] main_colour).index_count ∧
    (queue_text initial_geometry [glyph_run 1001] main_colour).vertices 4000 =
      { pos := ⟨4000, 8000, 0⟩, colour := main_colour, uv := ⟨0, 1000⟩ } ∧
    (queue_text initial_geometry [glyph_run 1001] main_colour).vertices 4000 ≠
      initial_geometry.vertices 4000 ∧
    (queue_text initial_geometry [glyph_run 1001] main_colour).indices 6000 = 4000 ∧
    (queue_text initial_geometry [glyph_run 1001] main_colour).indices 6000 ≠
      initial_geometry.indices 6000 := by
  have hv : (queue_text initial_geometry [glyph_run 1001] main_colour).vertices 4000 =
      { pos := ⟨4000, 8000, 0⟩, colour := main_colour, uv := ⟨0, 1000⟩ } := by
    show (queue_text_sequence initial_geometry (glyph_run 1001) main_colour).vertices 4000 = _
    rw [queue_text_sequence_vertices_apply _ _ _ _ (by decide), if_pos (by decide)]
    decide
  have hi : (queue_text initial_geometry [glyph_run 1001] main_colour).indices 6000 = 4000 := by
    show (queue_text_sequence initial_geometry (glyph_run 1001) main_colour).indices 6000 = _
    rw [queue_text_sequence_indices_apply _ _ _ _ (by decide), if_pos (by decide)]
    decide
  refine ⟨?_, ?_, hv, ?_, hi, ?_⟩
  · rw [queue_text_vertex_count _ _ _ (by decide)]
    decide
  · rw [queue_text_index_count _ _ _ (by decide)]
    decide
  · rw [hv]
    decide
  · rw [hi]
    decide

/-- C6, amended: for every sequence of flatten operations within one frame, starting
from an empty geometry buffer, whose total number of vertices is at most
`MAX_VERTEX_COUNT` (4000) and whose total number of indices is at most `MAX_INDEX_COUNT`
(6000): after every append `vertex_count ≤ 4000` and `index_count ≤ 6000` hold, and
nothing at or beyond position 4000 of the vertex array or position 6000 of the index
array has been written. -/
theorem capacity_respected_when_totals_fit
    (ops : List (TTF_GPUAtlasDrawSequence × SDL_FColor))
    (vertices : Nat → Vertex) (indices : Nat → Int)
    (hv : (ops.map (fun op => op.1.num_vertices)).sum ≤ MAX_VERTEX_COUNT)
    (hi : (ops.map (fun op => op.1.num_indices)).sum ≤ MAX_INDEX_COUNT) :
    ∀ n : Nat,
      (queue_all (empty_geometry vertices indices) (ops.take n)).vertex_count
        ≤ MAX_VERTEX_COUNT ∧
      (queue_all (empty_geometry vertices indices) (ops.take n)).index_count
        ≤ MAX_INDEX_COUNT ∧
      (∀ p, MAX_VERTEX_COUNT ≤ p →
        (queue_all (empty_geometry vertices indices) (ops.take n)).vertices p = vertices p) ∧
      (∀ p, MAX_INDEX_COUNT ≤ p →
        (queue_all (empty_geometry vertices indices) (ops.take n)).indices p = indices p) := by
  intro n
  have hvs := sum_take_le (ops.map (fun op => op.1.num_vertices)) n
  have his := sum_take_le (ops.map (fun op => op.1.num_indices)) n
  have hMV : MAX_VERTEX_COUNT ≤ INT_MAX := by decide
  have hMI : MAX_INDEX_COUNT ≤ INT_MAX := by decide
  have hvb := queue_all_vertex_blocks (ops.take n) (empty_geometry vertices indices)
    (by rw [List.map_take]; show 0 + _ ≤ INT_MAX; omega)
  have hib := queue_all_index_blocks (ops.take n) (empty_geometry vertices indices)
    (by rw [List.map_take]; show 0 + _ ≤ INT_MAX; omega)
  have hvc : (queue_all (empty_geometry vertices indices) (ops.take n)).vertex_count =
      0 + ((ops.map (fun op => op.1.num_vertices)).take n).sum := by
    have h := congrArg Prod.snd hvb
    simp only [append_blocks_count, List.map_map, Function.comp_def, List.map_take] at h
    exact h
  have hic : (queue_all (empty_geometry vertices indices) (ops.take n)).index_count =
      0 + ((ops.map (fun op => op.1.num_indices)).take n).sum := by
    have h := congrArg Prod.snd hib
    simp only [append_blocks_count, List.map_map, Function.comp_def, List.map_take] at h
    exact h
  refine ⟨by omega, by omega, ?_, ?_⟩
  · intro p hp
    have h := congrArg Prod.fst hvb
    simp only at h
    rw [h]
    apply append_blocks_outside
    right
    simp only [List.map_map, Function.comp_def, List.map_take]
    show 0 + _ ≤ p
    omega
  · intro p hp
    have h := congrArg Prod.fst hib
    simp only at h
    rw [h]
    apply append_blocks_outside
    right
    simp only [List.map_map, Function.comp_def, List.map_take]
    show 0 + _ ≤ p
    omega

/-- Witness of amended C6: the two appends of `node_A` and `node_B`. -/
theorem capacity_respected_when_totals_fit_witness :
    ([(node_A, main_colour), (node_B, main_colour)].map
      (fun op => op.1.num_vertices)).sum ≤ MAX_VERTEX_COUNT ∧
    ([(node_A, main_colour), (node_B, main_colour)].map
      (fun op => op.1.num_indices)).sum ≤ MAX_INDEX_COUNT ∧
    (queue_all initial_geometry [(node_A, main_colour)]).vertex_count ≤ MAX_VERTEX_COUNT ∧
    (queue_all initial_geometry [(node_A, main_colour), (node_B, main_colour)]).vertex_count
      ≤ MAX_VERTEX_COUNT ∧
    (queue_all initial_geometry [(node_A, main_colour), (node_B, main_colour)]).vertices 4000 =
      zero_vertex :=
  have h := capacity_respected_when_totals_fit
    [(node_A, main_colour), (node_B, main_colour)] (fun _ => zero_vertex) (fun _ => 0)
    (by decide) (by decide)
  ⟨by decide, by decide, (h 1).1, (h 2).1, (h 2).2.2.1 4000 (by decide)⟩

/-- C7: with `sizeof(Vertex) = 36` and `sizeof(int) = 4`, for a geometry buffer with
`vertex_count ≤ 4000` and `index_count ≤ 6000`, `set_geometry_data` writes the vertices
to the staging bytes from `0` of size `36 * vertex_count` and the indices to the staging
bytes from `144000 = sizeof(Vertex) * MAX_VERTEX_COUNT` of size `4 * index_count`; these
are the source offsets and sizes `transfer_data` uploads to offset `0` of the vertex
buffer and of the index buffer; the two ranges are disjoint and lie inside the
168000-byte transfer buffer. -/
theorem staging_ranges_match_upload_ranges (g : GeometryData)
    (hv : g.vertex_count ≤ MAX_VERTEX_COUNT) (hi : g.index_count ≤ MAX_INDEX_COUNT) :
    sizeof_Vertex = 36 ∧ sizeof_int = 4 ∧
    sizeof_Vertex * MAX_VERTEX_COUNT = 144000 ∧
    set_geometry_data g =
      [ { dst_offset := 0, src := HostArray.vertices, size := 36 * g.vertex_count },
        { dst_offset := 144000, src := HostArray.indices, size := 4 * g.index_count } ] ∧
    transfer_data g =
      [ { src_offset := 0, buffer := DeviceBuffer.vertex_buffer, dst_offset := 0,
          size := 36 * g.vertex_count },
        { src_offset := 144000, buffer := DeviceBuffer.index_buffer, dst_offset := 0,
          size := 4 * g.index_count } ] ∧
    (set_geometry_data g).map (fun w => (w.dst_offset, w.size)) =
      (transfer_data g).map (fun u => (u.src_offset, u.size)) ∧
    0 + 36 * g.vertex_count ≤ 144000 ∧
    144000 + 4 * g.index_count ≤ transfer_buffer_size ∧
    transfer_buffer_size = 168000 := by
  have hV : sizeof_Vertex = 36 := sizeof_Vertex_eq
  have hI : sizeof_int = 4 := rfl
  have hMV : MAX_VERTEX_COUNT = 4000 := rfl
  have hMI : MAX_INDEX_COUNT = 6000 := rfl
  rw [hMV] at hv
  rw [hMI] at hi
  have hs1 : size_t_mul 36 g.vertex_count = 36 * g.vertex_count :=
    size_t_mul_of_le 36 g.vertex_count (by omega) (by unfold INT_MAX; omega)
  have hs2 : size_t_mul 4 g.index_count = 4 * g.index_count :=
    size_t_mul_of_le 4 g.index_count (by omega) (by unfold INT_MAX; omega)
  have h1 : to_Uint32 (36 * g.vertex_count) = 36 * g.vertex_count := by
    unfold to_Uint32
    apply Nat.mod_eq_of_lt
    omega
  have h2 : to_Uint32 (4 * g.index_count) = 4 * g.index_count := by
    unfold to_Uint32
    apply Nat.mod_eq_of_lt
    omega
  have h3 : to_Uint32 (36 * 4000) = 144000 := by decide
  have h4 : transfer_buffer_size = 168000 := by
    unfold transfer_buffer_size
    rw [hV, hI, hMV, hMI]
    decide
  have hs : set_geometry_data g =
      [ { dst_offset := 0, src := HostArray.vertices, size := 36 * g.vertex_count },
        { dst_offset := 144000, src := HostArray.indices, size := 4 * g.index_count } ] := by
    unfold set_geometry_data
    rw [hV, hI, hMV, hs1, hs2]
  have ht : transfer_data g =
      [ { src_offset := 0, buffer := DeviceBuffer.vertex_buffer, dst_offset := 0,
          size := 36 * g.vertex_count },
        { src_offset := 144000, buffer := DeviceBuffer.index_buffer, dst_offset := 0,
          size := 4 * g.index_count } ] := by
    unfold transfer_data
    rw [hV, hI, hMV, hs1, hs2, h1, h2, h3]
  refine ⟨hV, hI, ?_, hs, ht, ?_, ?_, ?_, h4⟩
  · rw [hV, hMV]
  · rw [hs, ht]
    rfl
  · omega
  · rw [h4]
    omega

/-- Witness of C7 on the buffer holding `node_A` and `node_B` (10 vertices, 15
indices). -/
theorem staging_ranges_match_upload_ranges_witness :
    (queue_text initial_geometry [node_A, node_B] main_colour).vertex_count ≤ MAX_VERTEX_COUNT ∧
    (queue_text initial_geometry [node_A, node_B] main_colour).index_count ≤ MAX_INDEX_COUNT ∧
    set_geometry_data (queue_text initial_geometry [node_A, node_B] main_colour) =
      [ { dst_offset := 0, src := HostArray.vertices, size := 360 },
        { dst_offset := 144000, src := HostArray.indices, size := 60 } ] ∧
    transfer_data (queue_text initial_geometry [node_A, node_B] main_colour) =
      [ { src_offset := 0, buffer := DeviceBuffer.vertex_buffer, dst_offset := 0, size := 360 },
        { src_offset := 144000, buffer := DeviceBuffer.index_buffer, dst_offset := 0,
          size := 60 } ] :=
  have h := staging_ranges_match_upload_ranges
    (queue_text initial_geometry [node_A, node_B] main_colour) (by decide) (by decide)
  ⟨by decide, by decide, h.2.2.2.1, h.2.2.2.2.1⟩

/-- Counterexample to C8: when `TTF_OpenFont` fails and every other startup call
succeeds, `main` returns 0, whatever the frames would bring. -/
theorem main_returns_zero_after_font_failure_counterexample :
    startup_font_failure.font = false ∧
    main startup_font_failure [] = RunResult.returned 0 ∧
    main startup_font_failure [quit_frame] = RunResult.returned 0 := by
  decide

/-- C8, amended: when `SDL_GetBasePath` fails, `main` returns the nonzero status
`SDL_APP_FAILURE`. When font loading fails (`TTF_OpenFont` returns null) while the base
path is obtained and the other startup calls succeed, `main` skips the frame loop and
returns 0. -/
theorem main_exit_status (startup : StartupOutcome) (frames : List FrameInput) :
    SDL_APP_FAILURE ≠ 0 ∧
    (startup.base_path = false →
      main startup frames = RunResult.returned SDL_APP_FAILURE) ∧
    (startup.base_path = true → startup_handles_valid startup = true →
      startup.font = false → main startup frames = RunResult.returned 0) := by
  refine ⟨by decide, ?_, ?_⟩
  · intro hb
    simp [main, hb, SDL_Fail]
  · intro hb hh hf
    unfold main
    rw [if_neg (by simp [hb]), if_neg (by simp [hh]), hf]
    cases frames <;> rfl

/-- Witness of amended C8: a run in which the base path is not obtained and a run in
which only the font fails to load. -/
theorem main_exit_status_witness :
    main startup_base_path_failure [quit_frame] = RunResult.returned 2 ∧
    main startup_font_failure [quit_frame] = RunResult.returned 0 :=
  ⟨(main_exit_status startup_base_path_failure [quit_frame]).2.1 (by decide),
   (main_exit_status startup_font_failure [quit_frame]).2.2 (by decide) (by decide)
     (by decide)⟩

/-- C9: the end-of-frame reset is idempotent and touches only the counts: applying it
twice gives the same state as applying it once, both counts are zero afterwards, and
the vertex and index arrays are unchanged. -/
theorem reset_idempotent_counts_only (g : GeometryData) :
    reset (reset g) = reset g ∧
    (reset g).vertex_count = 0 ∧ (reset g).index_count = 0 ∧
    (reset g).vertices = g.vertices ∧ (reset g).indices = g.indices :=
  ⟨rfl, rfl, rfl, rfl, rfl⟩

/-- C10: the vertex input layout declared for the pipeline matches the `Vertex` struct:
with 4-byte floats the three attributes (FLOAT3 at offset 0, FLOAT4 at offset 12,
FLOAT2 at offset 28) start at the byte offsets of the fields `pos`, `colour` and `uv`,
each attribute is as large as its field, they do not overlap, and together they cover
exactly the 36-byte pitch `sizeof(Vertex)`. -/
theorem vertex_attributes_match_Vertex_layout :
    sizeof_float = 4 ∧
    vertex_attributes.map (fun a => a.format) =
      [VertexElementFormat.FLOAT3, VertexElementFormat.FLOAT4, VertexElementFormat.FLOAT2] ∧
    vertex_attributes.map (fun a => a.offset) = [0, 12, 28] ∧
    vertex_attributes.map (fun a => a.offset) = member_offsets 0 Vertex_members ∧
    vertex_attributes.map (fun a => a.format.bytes) = Vertex_members.map (fun m => m.size) ∧
    vertex_attributes.map (fun a => a.offset + a.format.bytes) = [12, 28, 36] ∧
    vertex_buffer_pitch = 36 ∧ vertex_buffer_pitch = sizeof_Vertex := by
  decide

end TextGpu
